import Mathlib

/-!
Verification of the resilient WebSocket client and message-validation engine
(`src/client/node/websocket-client.js` / `.ts`, `src/client/utils/message-validator.js`)
against its natural-language specification.

The JavaScript code is shallowly embedded: JavaScript values are modelled by
`JSValue`, the validator's per-call state passing is made explicit, and the
client's asynchronous callbacks are modelled as a step function over an
explicit event type.  The `.js` and `.ts` clients implement identical logic,
so a single embedding covers both.
-/

/-- A JavaScript runtime value, as far as the validator and the ack layer
inspect one.  Numbers are modelled as integers (no claim depends on
fractional values or NaN); `undefined` is JavaScript's `undefined`. -/
inductive JSValue where
  | str : String → JSValue
  | num : Int → JSValue
  | bool : Bool → JSValue
  | null : JSValue
  | undefined : JSValue
  | obj : List (String × JSValue) → JSValue
  | arr : List JSValue → JSValue

/-- JavaScript truthiness of a value (`if (v)`), restricted to the modelled
values: `false`, `null`, `undefined`, `0` and `""` are falsy. -/
def jsTruthy : JSValue → Bool
  | .bool b => b
  | .null => false
  | .undefined => false
  | .num n => n ≠ 0
  | .str s => s ≠ ""
  | .obj _ => true
  | .arr _ => true

/-- Embeds `typeof v === 'object'`: true for plain objects, arrays and `null`. -/
def typeofIsObject : JSValue → Bool
  | .obj _ => true
  | .arr _ => true
  | .null => true
  | _ => false

/-- Property read `v[k]` on the modelled values: a missing key, or a read on a
primitive, yields `undefined`.  Own properties only (the prototype chain is
not modelled); on arrays, index keys and `length` are the own properties. -/
def jsIndex : JSValue → String → JSValue
  | .obj fields, k =>
    match fields.find? (fun p => p.1 == k) with
    | some p => p.2
    | none => .undefined
  | .arr xs, k =>
    if k == "length" then .num xs.length
    else
      match (List.range xs.length).find? (fun i => toString i == k) with
      | some i => xs.getD i .undefined
      | none => .undefined
  | _, _ => .undefined

/-- Embeds `k in v` for the modelled values (own properties only). -/
def jsHasKey : JSValue → String → Bool
  | .obj fields, k => fields.any (fun p => p.1 == k)
  | .arr xs, k => (k == "length") || (List.range xs.length).any (fun i => toString i == k)
  | _, _ => false

/-! ## Validation Engine (`src/client/utils/message-validator.js`) -/

/-- One entry of `this.validationRules`: the rule function (which may throw,
modelled by `Except`; it receives the message and the context), the
`required` flag and the `errorMessage`.  Mirrors `addRule`'s stored shape. -/
structure RuleConfig where
  validator : JSValue → JSValue → Except String Bool
  required : Bool
  errorMessage : String

/-- An entry of `results.errors` pushed by `validate`. -/
structure VError where
  rule : String
  message : String
  required : Bool
deriving DecidableEq

/-- An entry of `results.warnings` pushed by `validate`. -/
structure VWarning where
  rule : String
  message : String
deriving DecidableEq

/-- The value returned by `MessageValidator.validate`. -/
structure VResult where
  isValid : Bool
  errors : List VError
  warnings : List VWarning
  context : JSValue

/-- An entry of `this.stats.errors` (`{rule, message, timestamp}`). -/
structure VLogEntry where
  rule : String
  message : String
  timestamp : String
deriving DecidableEq

/-- The validator's `this.stats`. -/
structure VStats where
  validated : Nat
  passed : Nat
  failed : Nat
  errors : List VLogEntry
deriving DecidableEq

/-- A `MessageValidator` instance: its ordered rule map and its stats.
`Object.entries` iteration order is insertion order, modelled by a list. -/
structure MessageValidator where
  validationRules : List (String × RuleConfig)
  stats : VStats

/-- The loop body of `validate`: evaluate one rule and update the result under
construction together with the instance stats, exactly as the `for` loop over
`Object.entries(this.validationRules)` does.  `now` is the value
`new Date().toISOString()` would produce for the log timestamp. -/
def applyRule (now : String) (message ctx : JSValue) :
    VStats × VResult → String × RuleConfig → VStats × VResult
  | (st, res), (ruleName, cfg) =>
    match cfg.validator message ctx with
    | .ok true => (st, res)
    | .ok false =>
      let res' := { res with
        isValid := false
        errors := res.errors ++ [⟨ruleName, cfg.errorMessage, cfg.required⟩] }
      if cfg.required then
        ({ st with
            failed := st.failed + 1
            errors := st.errors ++ [⟨ruleName, cfg.errorMessage, now⟩] }, res')
      else
        (st, { res' with warnings := res'.warnings ++ [⟨ruleName, cfg.errorMessage⟩] })
    | .error e =>
      (st, { res with
        isValid := false
        errors := res.errors ++ [⟨ruleName, "Validation rule error: " ++ e, cfg.required⟩] })

/-- Embeds `MessageValidator.validate(message, context)`: run every rule, then bump
`stats.validated` and, when the result is valid, `stats.passed`. -/
def MessageValidator.validate (v : MessageValidator) (message ctx : JSValue)
    (now : String) : VResult × MessageValidator :=
  let start : VResult := ⟨true, [], [], ctx⟩
  let p := v.validationRules.foldl (applyRule now message ctx) (v.stats, start)
  let st := { p.1 with validated := p.1.validated + 1 }
  let st := if p.2.isValid then { st with passed := st.passed + 1 } else st
  (p.2, { v with stats := st })

/-- Options accepted by `addRule` (`required`, `errorMessage`). -/
structure RuleOptions where
  required : Option Bool := none
  errorMessage : Option String := none

/-- Key assignment `obj[k] = v` on an insertion-ordered map: replaces the
value in place when the key exists, appends otherwise. -/
def setKey {α : Type} (l : List (String × α)) (k : String) (v : α) : List (String × α) :=
  if l.any (fun p => p.1 == k) then
    l.map (fun p => if p.1 == k then (k, v) else p)
  else l ++ [(k, v)]

/-- Embeds `MessageValidator.addRule(name, validatorFn, options)`. -/
def MessageValidator.addRule (v : MessageValidator) (name : String)
    (fn : JSValue → JSValue → Except String Bool) (opts : RuleOptions) :
    MessageValidator :=
  let cfg : RuleConfig :=
    { validator := fn
      required := opts.required ≠ some false
      errorMessage := opts.errorMessage.getD ("Validation failed for rule: " ++ name) }
  { v with validationRules := setKey v.validationRules name cfg }

/-- Embeds `MessageValidator.resetStats()`: the stats after a reset. -/
def resetStatsValue : VStats := ⟨0, 0, 0, []⟩

/-- Embeds `MessageValidator.resetStats()` applied to an instance. -/
def MessageValidator.resetStats (v : MessageValidator) : MessageValidator :=
  { v with stats := resetStatsValue }

/-- Rule outcome classifier: the rule function returned `true`
(`validate`'s only non-failing case). -/
def rulePasses (message ctx : JSValue) (r : String × RuleConfig) : Bool :=
  match r.2.validator message ctx with
  | .ok true => true
  | _ => false

/-- Rule outcome classifier: the rule function returned `false`
(as opposed to throwing). -/
def ruleSoftFails (message ctx : JSValue) (r : String × RuleConfig) : Bool :=
  match r.2.validator message ctx with
  | .ok false => true
  | _ => false

/-- Characterization of the `validate` rule loop: the final verdict is the
conjunction of all rule outcomes, warnings collect exactly the optional soft
failures in order, the failure counter counts exactly the required soft
failures, and the error log is extended by exactly the required soft
failures. -/
theorem validate_loop_spec (now : String) (message ctx : JSValue)
    (rules : List (String × RuleConfig)) : ∀ (st : VStats) (res : VResult),
    ((rules.foldl (applyRule now message ctx) (st, res)).2.isValid
        = (res.isValid && rules.all (rulePasses message ctx)))
    ∧ ((rules.foldl (applyRule now message ctx) (st, res)).2.context = res.context)
    ∧ ((rules.foldl (applyRule now message ctx) (st, res)).2.warnings
        = res.warnings ++ (rules.filter
            (fun r => ruleSoftFails message ctx r && !r.2.required)).map
            (fun r => (⟨r.1, r.2.errorMessage⟩ : VWarning)))
    ∧ ((rules.foldl (applyRule now message ctx) (st, res)).1.validated = st.validated)
    ∧ ((rules.foldl (applyRule now message ctx) (st, res)).1.passed = st.passed)
    ∧ ((rules.foldl (applyRule now message ctx) (st, res)).1.failed
        = st.failed + rules.countP (fun r => ruleSoftFails message ctx r && r.2.required))
    ∧ ((rules.foldl (applyRule now message ctx) (st, res)).1.errors
        = st.errors ++ (rules.filter
            (fun r => ruleSoftFails message ctx r && r.2.required)).map
            (fun r => (⟨r.1, r.2.errorMessage, now⟩ : VLogEntry))) := by
  induction rules with
  | nil => intro st res; simp
  | cons r rules ih =>
    intro st res
    obtain ⟨name, cfg⟩ := r
    simp only [List.foldl_cons]
    rcases hv : cfg.validator message ctx with e | b
    · -- validator threw
      have hstep : applyRule now message ctx (st, res) (name, cfg)
          = (st, { res with
              isValid := false
              errors := res.errors ++ [⟨name, "Validation rule error: " ++ e, cfg.required⟩] }) := by
        simp [applyRule, hv]
      have hpass : rulePasses message ctx (name, cfg) = false := by
        simp [rulePasses, hv]
      have hsoft : ruleSoftFails message ctx (name, cfg) = false := by
        simp [ruleSoftFails, hv]
      rw [hstep]
      obtain ⟨h1, h2, h3, h4, h5, h6, h7⟩ := ih st
        { res with
          isValid := false
          errors := res.errors ++ [⟨name, "Validation rule error: " ++ e, cfg.required⟩] }
      refine ⟨?_, ?_, ?_, ?_, ?_, ?_, ?_⟩
      · rw [h1]; simp [List.all_cons, hpass]
      · rw [h2]
      · rw [h3]; simp [List.filter_cons, hsoft]
      · rw [h4]
      · rw [h5]
      · rw [h6]; simp [List.countP_cons, hsoft]
      · rw [h7]; simp [List.filter_cons, hsoft]
    · rcases b with _ | _
      · -- validator returned false
        by_cases hreq : cfg.required
        · have hstep : applyRule now message ctx (st, res) (name, cfg)
              = ({ st with
                    failed := st.failed + 1
                    errors := st.errors ++ [⟨name, cfg.errorMessage, now⟩] },
                 { res with
                    isValid := false
                    errors := res.errors ++ [⟨name, cfg.errorMessage, cfg.required⟩] }) := by
            simp [applyRule, hv, hreq]
          have hpass : rulePasses message ctx (name, cfg) = false := by
            simp [rulePasses, hv]
          have hsoft : ruleSoftFails message ctx (name, cfg) = true := by
            simp [ruleSoftFails, hv]
          rw [hstep]
          obtain ⟨h1, h2, h3, h4, h5, h6, h7⟩ := ih
            { st with
              failed := st.failed + 1
              errors := st.errors ++ [⟨name, cfg.errorMessage, now⟩] }
            { res with
              isValid := false
              errors := res.errors ++ [⟨name, cfg.errorMessage, cfg.required⟩] }
          refine ⟨?_, ?_, ?_, ?_, ?_, ?_, ?_⟩
          · rw [h1]; simp [List.all_cons, hpass]
          · rw [h2]
          · rw [h3]; simp [List.filter_cons, hsoft, hreq]
          · rw [h4]
          · rw [h5]
          · rw [h6]; simp [List.countP_cons, hsoft, hreq]; omega
          · rw [h7]; simp [List.filter_cons, hsoft, hreq]
        · have hstep : applyRule now message ctx (st, res) (name, cfg)
              = (st, { res with
                  isValid := false
                  errors := res.errors ++ [⟨name, cfg.errorMessage, cfg.required⟩]
                  warnings := res.warnings ++ [⟨name, cfg.errorMessage⟩] }) := by
            simp [applyRule, hv, hreq]
          have hpass : rulePasses message ctx (name, cfg) = false := by
            simp [rulePasses, hv]
          have hsoft : ruleSoftFails message ctx (name, cfg) = true := by
            simp [ruleSoftFails, hv]
          rw [hstep]
          obtain ⟨h1, h2, h3, h4, h5, h6, h7⟩ := ih st
            { res with
              isValid := false
              errors := res.errors ++ [⟨name, cfg.errorMessage, cfg.required⟩]
              warnings := res.warnings ++ [⟨name, cfg.errorMessage⟩] }
          refine ⟨?_, ?_, ?_, ?_, ?_, ?_, ?_⟩
          · rw [h1]; simp [List.all_cons, hpass]
          · rw [h2]
          · rw [h3]; simp [List.filter_cons, hsoft, hreq]
          · rw [h4]
          · rw [h5]
          · rw [h6]; simp [List.countP_cons, hsoft, hreq]
          · rw [h7]; simp [List.filter_cons, hsoft, hreq]
      · -- validator returned true
        have hstep : applyRule now message ctx (st, res) (name, cfg) = (st, res) := by
          simp [applyRule, hv]
        have hpass : rulePasses message ctx (name, cfg) = true := by
          simp [rulePasses, hv]
        have hsoft : ruleSoftFails message ctx (name, cfg) = false := by
          simp [ruleSoftFails, hv]
        rw [hstep]
        obtain ⟨h1, h2, h3, h4, h5, h6, h7⟩ := ih st res
        refine ⟨?_, ?_, ?_, ?_, ?_, ?_, ?_⟩
        · rw [h1]; simp [List.all_cons, hpass]
        · rw [h2]
        · rw [h3]; simp [List.filter_cons, hsoft]
        · rw [h4]
        · rw [h5]
        · rw [h6]; simp [List.countP_cons, hsoft]
        · rw [h7]; simp [List.filter_cons, hsoft]

/-- Stats bookkeeping of one `validate` call, derived from the loop
characterization and the two trailing counter bumps. -/
theorem validate_stats_spec (v : MessageValidator) (message ctx : JSValue) (now : String) :
    ((v.validate message ctx now).2.stats.validated = v.stats.validated + 1)
    ∧ ((v.validate message ctx now).2.stats.passed
        = v.stats.passed + (if (v.validate message ctx now).1.isValid then 1 else 0))
    ∧ ((v.validate message ctx now).2.stats.failed
        = v.stats.failed
            + v.validationRules.countP (fun r => ruleSoftFails message ctx r && r.2.required))
    ∧ ((v.validate message ctx now).2.stats.errors
        = v.stats.errors ++ (v.validationRules.filter
            (fun r => ruleSoftFails message ctx r && r.2.required)).map
            (fun r => (⟨r.1, r.2.errorMessage, now⟩ : VLogEntry))) := by
  obtain ⟨h1, h2, h3, h4, h5, h6, h7⟩ :=
    validate_loop_spec now message ctx v.validationRules v.stats ⟨true, [], [], ctx⟩
  by_cases hb :
      (List.foldl (applyRule now message ctx) (v.stats, ⟨true, [], [], ctx⟩)
        v.validationRules).2.isValid
  · refine ⟨?_, ?_, ?_, ?_⟩ <;>
      simp [MessageValidator.validate, hb, h4, h5, h6, h7]
  · refine ⟨?_, ?_, ?_, ?_⟩ <;>
      simp [MessageValidator.validate, hb, h4, h5, h6, h7]

/-- The result returned by one `validate` call, derived from the loop
characterization. -/
theorem validate_result_spec (v : MessageValidator) (message ctx : JSValue) (now : String) :
    ((v.validate message ctx now).1.isValid
        = v.validationRules.all (rulePasses message ctx))
    ∧ ((v.validate message ctx now).1.warnings
        = (v.validationRules.filter
            (fun r => ruleSoftFails message ctx r && !r.2.required)).map
            (fun r => (⟨r.1, r.2.errorMessage⟩ : VWarning)))
    ∧ ((v.validate message ctx now).1.context = ctx) := by
  obtain ⟨h1, h2, h3, h4, h5, h6, h7⟩ :=
    validate_loop_spec now message ctx v.validationRules v.stats ⟨true, [], [], ctx⟩
  refine ⟨?_, ?_, ?_⟩ <;> simpa [MessageValidator.validate] using by
    first
      | exact h1
      | exact h3
      | exact h2

/-- A validator whose single registered rule is optional (`required: false`)
and always returns `false`: the configuration exercising claim C3. -/
def optOnlyValidator : MessageValidator :=
  { validationRules := [("optionalRule",
      { validator := fun _ _ => .ok false
        required := false
        errorMessage := "optional rule failed" })]
    stats := ⟨0, 0, 0, []⟩ }

/-- Claim C3, counterexample: The claim says a failing optional rule leaves
`isValid = true`.  On a validator whose only rule is optional and failing,
the code sets `isValid = false` (the failure is also recorded both in
`errors` and in `warnings`), although the required-failure counter stays 0. -/
theorem C3_counterexample :
    ((optOnlyValidator.validate .null .null "t").1.isValid = false)
    ∧ ((optOnlyValidator.validate .null .null "t").1.warnings
        = [⟨"optionalRule", "optional rule failed"⟩])
    ∧ ((optOnlyValidator.validate .null .null "t").1.errors
        = [⟨"optionalRule", "optional rule failed", false⟩])
    ∧ ((optOnlyValidator.validate .null .null "t").2.stats.failed = 0) :=
  ⟨rfl, rfl, rfl, rfl⟩

/-- Claim C3, amended: `validate` marks the result invalid whenever any rule
fails, required or optional: `isValid` is true exactly when every rule
returns `true`.  A failing optional rule is recorded in `warnings` (in
registration order) but does not increment the failure counter; only failing
required rules increment `stats.failed`. -/
theorem C3_optional_failure_semantics (v : MessageValidator)
    (message ctx : JSValue) (now : String) :
    ((v.validate message ctx now).1.isValid
        = v.validationRules.all (rulePasses message ctx))
    ∧ ((v.validate message ctx now).1.warnings
        = (v.validationRules.filter
            (fun r => ruleSoftFails message ctx r && !r.2.required)).map
            (fun r => (⟨r.1, r.2.errorMessage⟩ : VWarning)))
    ∧ ((v.validate message ctx now).2.stats.failed
        = v.stats.failed
            + v.validationRules.countP (fun r => ruleSoftFails message ctx r && r.2.required)) :=
  ⟨(validate_result_spec v message ctx now).1,
   (validate_result_spec v message ctx now).2.1,
   (validate_stats_spec v message ctx now).2.2.1⟩

/-- Claim C10: Every `validate` call increments `stats.validated` by exactly
one and increments `stats.passed` by exactly one iff the returned result is
valid; `validate` never decreases `stats.failed` and only appends to the
error log; `addRule` leaves the stats untouched; `resetStats` returns all
counters and the error log to their initial zero/empty values. -/
theorem C10_stats_accounting (v : MessageValidator) (message ctx : JSValue)
    (now nm : String) (fn : JSValue → JSValue → Except String Bool)
    (opts : RuleOptions) :
    ((v.validate message ctx now).2.stats.validated = v.stats.validated + 1)
    ∧ ((v.validate message ctx now).2.stats.passed
        = v.stats.passed + (if (v.validate message ctx now).1.isValid then 1 else 0))
    ∧ (v.stats.failed ≤ (v.validate message ctx now).2.stats.failed)
    ∧ (v.stats.errors <+: (v.validate message ctx now).2.stats.errors)
    ∧ ((v.addRule nm fn opts).stats = v.stats)
    ∧ (v.resetStats.stats = ⟨0, 0, 0, []⟩) := by
  obtain ⟨s1, s2, s3, s4⟩ := validate_stats_spec v message ctx now
  exact ⟨s1, s2, by rw [s3]; exact Nat.le_add_right _ _, ⟨_, s4.symm⟩, rfl, rfl⟩

/-! ### Predefined rules (`MessageValidator.predefinedRules`) -/

/-- Embeds `predefinedRules.isString`. -/
def isString : JSValue → Bool
  | .str _ => true
  | _ => false

/-- Embeds `predefinedRules.isNumber` (`typeof message === 'number' && !isNaN(message)`;
the integer model has no NaN). -/
def isNumber : JSValue → Bool
  | .num _ => true
  | _ => false

/-- Embeds `key.endsWith('?')`: whether the last character of the key is `?`
(written as a reducible last-character check so that concrete schemas
evaluate). -/
def strEndsWithQM (k : String) : Bool := k.data.getLast? == some '?'

/-- A schema entry's value: either a predicate function or a nested schema,
matching the `typeof validator === 'function'` dispatch in
`predefinedRules.matchesSchema`. -/
inductive SchemaVal where
  | pred : (JSValue → Bool) → SchemaVal
  | schema : List (String × SchemaVal) → SchemaVal

mutual

/-- Dispatch on one schema entry: apply the predicate, or recurse into the
nested schema. -/
def checkSchemaVal : SchemaVal → JSValue → Bool
  | .pred f, x => f x
  | .schema s, x => matchesSchema s x
termination_by v _ => (sizeOf v, 0)

/-- Embeds `predefinedRules.matchesSchema(schema)(message)`: reject anything that is
not `object`-typed or is `null`, then check every declared key. -/
def matchesSchema : List (String × SchemaVal) → JSValue → Bool
  | s, m =>
    if typeofIsObject m && !(match m with | .null => true | _ => false) then
      checkFields s m
    else false
termination_by s _ => (sizeOf s, 2)

/-- The `for (const [key, validator] of Object.entries(schema))` loop. -/
def checkFields : List (String × SchemaVal) → JSValue → Bool
  | [], _ => true
  | (k, v) :: rest, m => checkField k v m && checkFields rest m
termination_by s _ => (sizeOf s, 1)

/-- One iteration of the schema loop: a key suffixed `?` is optional and
checked only when present and not `undefined`; any other key must be present
and its value must satisfy the entry. -/
def checkField : String → SchemaVal → JSValue → Bool
  | k, v, m =>
    if strEndsWithQM k then
      let ak := k.dropRight 1
      if jsHasKey m ak then
        match jsIndex m ak with
        | .undefined => true
        | x => checkSchemaVal v x
      else true
    else
      if jsHasKey m k then checkSchemaVal v (jsIndex m k) else false
termination_by _ v _ => (sizeOf v, 3)

end

/-- The field loop accepts a message iff every declared field checks out. -/
theorem checkFields_eq_all (s : List (String × SchemaVal)) (m : JSValue) :
    checkFields s m = s.all (fun kv => checkField kv.1 kv.2 m) := by
  induction s with
  | nil => simp [checkFields]
  | cons kv rest ih =>
    obtain ⟨k, v⟩ := kv
    simp [checkFields, ih]

/-- The schema from the specification's validation example:
`{id: isNumber, name: isString}`. -/
def schemaC8 : List (String × SchemaVal) :=
  [("id", .pred isNumber), ("name", .pred isString)]

/-- A `MessageValidator` carrying the `matchesSchema(schemaC8)` rule, as
`createJSONValidator` registers it (`required: true`, the schema error
message). -/
def schemaValidatorC8 : MessageValidator :=
  { validationRules := [("matchesSchema",
      { validator := fun m _ => .ok (matchesSchema schemaC8 m)
        required := true
        errorMessage := "Message does not match expected schema" })]
    stats := ⟨0, 0, 0, []⟩ }

/-- Claim C8, counterexample: The claim requires the schema validator to
return `false` whenever the message is not a structured (non-null,
non-array) object.  The code's guard only rejects values whose `typeof` is
not `'object'`, plus `null` — an array slips through: `[]` checked against
the empty schema yields `true`, not `false`. -/
theorem C8_counterexample : matchesSchema [] (JSValue.arr []) = true := by
  simp [matchesSchema, typeofIsObject, checkFields]

/-- Claim C8, amended: The recursive schema validator returns `true` exactly
when the message is `object`-typed and non-null (arrays also qualify) and
every declared key checks out; an optional key (suffix `?`) that is absent
never causes failure, while an absent required key always fails.  The two
concrete examples hold: `{id: 1, name: "a"}` matches
`{id: isNumber, name: isString}`, and validating `{id: "x"}` against the
same schema yields `isValid = false` with an error tagging the
`matchesSchema` rule. -/
theorem C8_schema_semantics :
    (∀ (s : List (String × SchemaVal)) (m : JSValue),
        matchesSchema s m = true ↔
          typeofIsObject m = true ∧ m ≠ .null ∧ ∀ kv ∈ s, checkField kv.1 kv.2 m = true)
    ∧ (∀ (k : String) (v : SchemaVal) (m : JSValue),
        strEndsWithQM k = true → jsHasKey m (k.dropRight 1) = false →
          checkField k v m = true)
    ∧ (∀ (k : String) (v : SchemaVal) (m : JSValue),
        strEndsWithQM k = false → jsHasKey m k = false →
          checkField k v m = false)
    ∧ (matchesSchema schemaC8 (JSValue.obj [("id", .num 1), ("name", .str "a")]) = true)
    ∧ ((schemaValidatorC8.validate (JSValue.obj [("id", .str "x")]) .null "t").1.isValid
        = false)
    ∧ ((schemaValidatorC8.validate (JSValue.obj [("id", .str "x")]) .null "t").1.errors
        = [⟨"matchesSchema", "Message does not match expected schema", true⟩]) := by
  have hbad : matchesSchema schemaC8 (JSValue.obj [("id", JSValue.str "x")]) = false := by
    simp [matchesSchema, typeofIsObject, checkFields, checkField, checkSchemaVal, schemaC8,
      jsHasKey, jsIndex, isNumber, isString, strEndsWithQM]
  refine ⟨?_, ?_, ?_, ?_, ?_, ?_⟩
  · intro s m
    cases m <;>
      simp [matchesSchema, typeofIsObject, checkFields_eq_all, List.all_eq_true]
  · intro k v m h1 h2
    simp [checkField, h1, h2]
  · intro k v m h1 h2
    simp [checkField, h1, h2]
  · simp [matchesSchema, typeofIsObject, checkFields, checkField, checkSchemaVal, schemaC8,
      jsHasKey, jsIndex, isNumber, isString, strEndsWithQM]
  · simp [MessageValidator.validate, schemaValidatorC8, applyRule, hbad]
  · simp [MessageValidator.validate, schemaValidatorC8, applyRule, hbad]

/-- Witness for C8: the amended theorem applied at concrete inputs — the
empty schema accepts `{}`, an absent optional key is skipped, an absent
required key fails. -/
theorem C8_schema_semantics_witness :
    (matchesSchema [] (JSValue.obj []) = true)
    ∧ (checkField "tag?" (.pred isNumber) (JSValue.obj []) = true)
    ∧ (checkField "tag" (.pred isNumber) (JSValue.obj []) = false) :=
  ⟨(C8_schema_semantics.1 [] (JSValue.obj [])).mpr
      ⟨rfl, by simp, by simp⟩,
   C8_schema_semantics.2.1 "tag?" (.pred isNumber) (JSValue.obj []) (by decide) (by decide),
   C8_schema_semantics.2.2.1 "tag" (.pred isNumber) (JSValue.obj []) (by decide) (by decide)⟩

/-! ## Reliable-send layer: `sendWithAck`
(`websocket-client.js:131-165`, `websocket-client.ts:209-246`) -/

/-- Inbound wire data as the ack interceptor sees it, abstracting the result
of `JSON.parse(data.toString())`: `json v` is data whose parse succeeds with
value `v`, `raw s` is data whose parse throws. -/
inductive Inbound where
  | json : JSValue → Inbound
  | raw : String → Inbound

/-- The interceptor's match test `parsedData.ack && parsedData.id === messageId`
(strict equality against the string correlation id). -/
def isAckFor (v : JSValue) (mid : String) : Bool :=
  jsTruthy (jsIndex v "ack") &&
    (match jsIndex v "id" with
      | .str s => s == mid
      | _ => false)

/-- The client's `callbacks.onMessage` slot: either the caller-registered
handler or the temporary interceptor installed by `sendWithAck`, remembering
its correlation id.  (Each claim concerns a single outstanding call, so
nested interceptors are not modelled.) -/
inductive MsgHandler where
  | original : MsgHandler
  | interceptor : String → MsgHandler
deriving DecidableEq

/-- Delivery of one inbound message to the current handler, as the socket's
`message` event does: the handler afterwards, the messages forwarded to the
caller's original callback, and the matched ack payload if any.  Mirrors the
interceptor body: on a parse failure the `catch` forwards to
`originalOnMessage`; parsed data is inspected and only an exact ack match
resolves (restoring the original handler); parsed non-matching data falls
off the end of the `try` block with no action taken. -/
def deliver : MsgHandler → Inbound → MsgHandler × List Inbound × Option JSValue
  | .original, d => (.original, [d], none)
  | .interceptor mid, d =>
    match d with
    | .json v =>
      if isAckFor v mid then (.original, [], some v)
      else (.interceptor mid, [], none)
    | .raw s => (.interceptor mid, [.raw s], none)

/-- The observable state of one outstanding `sendWithAck` call: the current
message callback, how (if at all) its promise has settled, and whether the
ack timeout timer is still armed. -/
structure AckState where
  handler : MsgHandler
  settled : Option (Except String JSValue)
  timerActive : Bool

/-- The events that can settle an outstanding `sendWithAck` call. -/
inductive AckEvent where
  | inbound : Inbound → AckEvent
  | timeoutFire : AckEvent
  | sendFailed : String → AckEvent

/-- State right after `sendWithAck` installs its interceptor and arms the
timeout. -/
def ackInit (mid : String) : AckState := ⟨.interceptor mid, none, true⟩

/-- A promise settles only once: later resolutions/rejections are no-ops. -/
def settleOnce : Option (Except String JSValue) → Except String JSValue →
    Option (Except String JSValue)
  | none, r => some r
  | some r0, _ => some r0

/-- One step of the outstanding call, mirroring the three code paths: an
inbound message goes through the interceptor (a match clears the timer,
restores the handler and resolves); the timeout firing rejects with
`'Message acknowledgment timeout'` but touches nothing else; a `send`
failure clears the timer, restores the handler and rejects. -/
def ackStep (s : AckState) : AckEvent → AckState × List Inbound
  | .inbound d =>
    match deliver s.handler d with
    | (h', fwd, some v) =>
      ({ handler := h', settled := settleOnce s.settled (.ok v), timerActive := false }, fwd)
    | (h', fwd, none) => ({ s with handler := h' }, fwd)
  | .timeoutFire =>
    ({ s with
        settled := settleOnce s.settled (.error "Message acknowledgment timeout") }, [])
  | .sendFailed e =>
    ({ handler := .original, settled := settleOnce s.settled (.error e),
       timerActive := false }, [])

/-- Claim C1: The claim: during an outstanding `sendWithAck`, every inbound
message whose correlation id differs — including well-formed JSON that is
not the matching ack — is forwarded unchanged to the regular message
callback.  The code refutes this: delivering the parsed JSON message
`{"ack": true, "id": "other"}` to the interceptor awaiting `"msg_1"`
forwards nothing (the message is silently dropped), while only unparseable
data reaches the original callback via the `catch` branch.  This contradicts
the code's own comment (`// Not an ACK message, continue with original
handler`) and the spec, so the code, not the claim, is wrong. -/
theorem C1_interceptor_drops_parseable_nonmatching :
    (deliver (.interceptor "msg_1")
        (.json (.obj [("ack", .bool true), ("id", .str "other")]))
      = (.interceptor "msg_1", [], none))
    ∧ (deliver (.interceptor "msg_1")
        (.json (.obj [("type", .str "chat"), ("text", .str "hi")]))
      = (.interceptor "msg_1", [], none))
    ∧ (deliver (.interceptor "msg_1") (.raw "plain")
      = (.interceptor "msg_1", [.raw "plain"], none)) :=
  ⟨rfl, rfl, rfl⟩

/-- Claim C2: The claim: after every settlement path of `sendWithAck` the
message callback is restored to the one in force before the call.  The code
refutes this on the timeout path: when the timeout fires the promise is
rejected but `callbacks.onMessage` is left pointing at the interceptor.
The other two paths (matching ack, send failure) do restore it. -/
theorem C2_timeout_keeps_interceptor :
    ((ackStep (ackInit "msg_1") .timeoutFire).1.handler = .interceptor "msg_1")
    ∧ ((ackStep (ackInit "msg_1") .timeoutFire).1.settled
        = some (.error "Message acknowledgment timeout"))
    ∧ ((ackStep (ackInit "msg_1") (.sendFailed "socket error")).1.handler = .original)
    ∧ ((ackStep (ackInit "msg_1")
          (.inbound (.json (.obj [("ack", .bool true), ("id", .str "msg_1")])))).1.handler
        = .original) :=
  ⟨rfl, rfl, rfl, rfl⟩

/-- The `message` argument of `sendWithAck`, split by the source's
`typeof message === 'string'` test: a string, or a structured object. -/
inductive OutMessage where
  | str : String → OutMessage
  | obj : List (String × JSValue) → OutMessage

/-- What `send` receives from `sendWithAck`: either the string itself or the
`JSON.stringify` of a value. -/
inductive WirePayload where
  | raw : String → WirePayload
  | jsonOf : JSValue → WirePayload

/-- Embeds `sendWithAck`'s payload construction:
`typeof message === 'string' ? message : JSON.stringify({...message, id: messageId})`.
The spread keeps property order and overwrites an existing `id` in place
(`setKey`). -/
def buildAckPayload (message : OutMessage) (mid : String) : WirePayload :=
  match message with
  | .str s => .raw s
  | .obj fields => .jsonOf (.obj (setKey fields "id" (.str mid)))

/-- Lemma on `setKey`'s replace branch: when the key occurs, the rewritten list's
first hit for that key is the new binding. -/
theorem find?_setKey_replace {α : Type} (k : String) (v : α) :
    ∀ l : List (String × α), l.any (fun p => p.1 == k) →
      (l.map (fun p => if p.1 == k then (k, v) else p)).find? (fun p => p.1 == k)
        = some (k, v) := by
  intro l
  induction l with
  | nil => intro h; simp at h
  | cons p rest ih =>
    intro h
    rw [List.map_cons]
    by_cases hp : p.1 = k
    · have hcond : (p.1 == k) = true := by simp [hp]
      rw [if_pos hcond, List.find?_cons_of_pos _ (by simp)]
    · have hcond : ¬((p.1 == k) = true) := by simp [hp]
      have hrest : rest.any (fun q => q.1 == k) := by
        simpa [List.any_cons, hp] using h
      rw [if_neg hcond, List.find?_cons_of_neg _ (by simp [hp])]
      exact ih hrest

/-- Lemma on `setKey`'s append branch: when the key is absent, the appended binding is
the first (and only) hit for that key. -/
theorem find?_setKey_append {α : Type} (k : String) (v : α) :
    ∀ l : List (String × α), l.any (fun p => p.1 == k) = false →
      (l ++ [(k, v)]).find? (fun p => p.1 == k) = some (k, v) := by
  intro l
  induction l with
  | nil => intro _; simp [List.find?_cons_of_pos]
  | cons p rest ih =>
    intro h
    simp only [List.any_cons, Bool.or_eq_false_iff] at h
    obtain ⟨hp, hrest⟩ := h
    rw [List.cons_append, List.find?_cons_of_neg _ (by simp [hp])]
    exact ih hrest

/-- Looking up the assigned key after `setKey` always finds the new value. -/
theorem find?_setKey {α : Type} (l : List (String × α)) (k : String) (v : α) :
    (setKey l k v).find? (fun p => p.1 == k) = some (k, v) := by
  by_cases h : l.any (fun p => p.1 == k)
  · rw [setKey, if_pos h]
    exact find?_setKey_replace k v l h
  · rw [setKey, if_neg h]
    have h' : l.any (fun p => p.1 == k) = false := by
      cases hb : l.any (fun p => p.1 == k)
      · rfl
      · exact absurd hb h
    exact find?_setKey_append k v l h'

/-- Claim C9, counterexample: The claim says a non-structured payload (e.g. a
plain string) is wrapped so that it still carries the fresh correlation id.
The code refutes this: `sendWithAck('PING', ...)` transmits the bare string
`"PING"` unchanged — the correlation id `msg_…` never reaches the wire, so
no matching acknowledgment is possible for string payloads. -/
theorem C9_counterexample :
    buildAckPayload (.str "PING") "msg_1700000000000_042" = .raw "PING" := rfl

/-- Claim C9, amended: `sendWithAck` assigns a fresh correlation id and, for a
structured (non-string) payload, merges it into the payload before
stringifying — the transmitted object's `id` property is exactly the
correlation id, overwriting any caller-supplied `id`.  A string payload,
however, is transmitted verbatim and does not carry the correlation id. -/
theorem C9_payload_id_semantics :
    (∀ (s mid : String), buildAckPayload (.str s) mid = .raw s)
    ∧ (∀ (fields : List (String × JSValue)) (mid : String),
        buildAckPayload (.obj fields) mid
            = .jsonOf (.obj (setKey fields "id" (.str mid)))
        ∧ jsIndex (.obj (setKey fields "id" (.str mid))) "id" = .str mid) :=
  ⟨fun _ _ => rfl,
   fun fields mid => ⟨rfl, by simp [jsIndex, find?_setKey fields "id" (JSValue.str mid)]⟩⟩

/-! ## Connection lifecycle, reconnection and the outbound queue
(`websocket-client.js:29-110, 181-186`) -/

/-- The client's `this.stats`. -/
structure ClientStats where
  sent : Nat
  received : Nat
  errors : Nat
  connections : Nat
  disconnections : Nat
deriving DecidableEq

/-- The fields of `CloudflareWebSocketClient` driving connection lifecycle,
reconnection and the outbound queue.  `ws` records whether a socket object
exists (`this.ws !== null`); a queue entry carries the issuing call's
identifier so the settlement of its promise can be tracked. -/
structure ClientState where
  ws : Bool
  isConnected : Bool
  reconnectAttempts : Nat
  maxReconnectAttempts : Nat
  reconnectDelay : Nat
  autoReconnect : Bool
  messageQueue : List (Nat × String)
deriving DecidableEq

/-- A fresh client built with `options = {}`: defaults
`maxReconnectAttempts = 5`, `reconnectDelay = 1000`, `autoReconnect = true`. -/
def initialClient : ClientState :=
  { ws := false, isConnected := false, reconnectAttempts := 0,
    maxReconnectAttempts := 5, reconnectDelay := 1000, autoReconnect := true,
    messageQueue := [] }

/-- A client whose `connect()` has succeeded (socket exists and is open). -/
def connectedClient : ClientState :=
  { initialClient with ws := true, isConnected := true }

/-- How a `send` promise settles. -/
inductive SendOutcome where
  | resolved : SendOutcome
  | rejected : String → SendOutcome
deriving DecidableEq

/-- Externally visible effects of one step: payloads written to the socket
(in order), promise settlements, and the delay of a reconnection timer armed
by `_attemptReconnect` (if any). -/
structure StepOut where
  transmitted : List (Nat × String)
  settled : List (Nat × SendOutcome)
  scheduledDelay : Option Nat
deriving DecidableEq

/-- A step with no externally visible effect. -/
def noOut : StepOut := ⟨[], [], none⟩

/-- The events driving the client: `connect()` being issued, the socket's
`open` and `close` events, a `send(payload, options)` call (tagged with a
call id and carrying `options.queue`), and a caller `disconnect()`. -/
inductive ClientEvent where
  | connectReq : ClientEvent
  | openEvt : ClientEvent
  | closeEvt : ClientEvent
  | sendReq : Nat → String → Option Bool → ClientEvent
  | disconnectReq : ClientEvent
deriving DecidableEq

/-- One transition of the client.
* `connectReq`: `this.ws = new WebSocket(url)`.
* `openEvt` (the `open` handler): set `isConnected`, reset
  `reconnectAttempts` to 0, then `while (messageQueue.length > 0)` shift and
  transmit each entry front-first, resolving its promise.
* `closeEvt` (the `close` handler): clear `isConnected`, then — whatever
  caused the close — if `autoReconnect && reconnectAttempts <
  maxReconnectAttempts`, run `_attemptReconnect`, which increments the
  counter and arms a timer with the constant `reconnectDelay`.
* `sendReq`: if there is no open socket, queue unless `options.queue ===
  false`, in which case reject with `'WebSocket is not connected'`;
  otherwise transmit immediately.
* `disconnectReq`: `if (this.ws) { this.ws.close(); this.isConnected =
  false; }` — nothing else: no timer cancellation, no terminal flag. -/
def clientStep (s : ClientState) : ClientEvent → ClientState × StepOut
  | .connectReq => ({ s with ws := true }, noOut)
  | .openEvt =>
    ({ s with isConnected := true, reconnectAttempts := 0, messageQueue := [] },
     { transmitted := s.messageQueue,
       settled := s.messageQueue.map (fun q => (q.1, .resolved)),
       scheduledDelay := none })
  | .closeEvt =>
    let s1 := { s with isConnected := false }
    if s1.autoReconnect ∧ s1.reconnectAttempts < s1.maxReconnectAttempts then
      ({ s1 with reconnectAttempts := s1.reconnectAttempts + 1 },
       { noOut with scheduledDelay := some s1.reconnectDelay })
    else (s1, noOut)
  | .sendReq cid payload queueOpt =>
    if s.ws = false ∨ s.isConnected = false then
      if queueOpt ≠ some false then
        ({ s with messageQueue := s.messageQueue ++ [(cid, payload)] }, noOut)
      else
        (s, { noOut with settled := [(cid, .rejected "WebSocket is not connected")] })
    else
      (s, { noOut with transmitted := [(cid, payload)], settled := [(cid, .resolved)] })
  | .disconnectReq =>
    if s.ws then ({ s with isConnected := false }, noOut) else (s, noOut)

/-- Run a sequence of events, collecting every step's outputs. -/
def clientRun (s : ClientState) : List ClientEvent → ClientState × List StepOut
  | [] => (s, [])
  | e :: es =>
    let p := clientStep s e
    let q := clientRun p.1 es
    (q.1, p.2 :: q.2)

/-- Whether a step's reconnection delay (if one was armed) equals `d`. -/
def delayIsConst (d : Nat) (o : StepOut) : Bool :=
  match o.scheduledDelay with
  | none => true
  | some x => x == d

/-- No event changes the configured `reconnectDelay`, and any timer armed by
a step uses the current `reconnectDelay`. -/
theorem clientStep_delay (s : ClientState) (e : ClientEvent) :
    ((clientStep s e).1.reconnectDelay = s.reconnectDelay)
    ∧ (delayIsConst s.reconnectDelay (clientStep s e).2 = true) := by
  cases e <;> simp only [clientStep] <;> (repeat' split) <;> simp [delayIsConst, noOut]

/-- Claim C4, counterexample: The claim requires the delay before attempt `n`
to satisfy `baseDelay * 2^(n-1) * 0.5 ≤ delay`.  The code schedules the
constant `reconnectDelay` every time: three abnormal closes from a fresh
connected client (defaults: base 1000 ms) arm timers of 1000 ms each, but
for attempt `n = 3` the claimed lower bound is `1000 * 2^2 / 2 = 2000 >
1000`. -/
theorem C4_counterexample :
    ((clientRun connectedClient [.closeEvt, .closeEvt, .closeEvt]).2.map
        StepOut.scheduledDelay = [some 1000, some 1000, some 1000])
    ∧ ((clientRun connectedClient [.closeEvt, .closeEvt, .closeEvt]).1.reconnectAttempts = 3)
    ∧ ¬ (1000 * 2 ^ (3 - 1) / 2 ≤ 1000) :=
  ⟨rfl, rfl, by decide⟩

/-- Claim C4, amended: Every reconnection timer the client ever arms uses the
constant configured `reconnectDelay` (default 1000 ms), independent of the
attempt number: there is no exponential growth, no `maxDelay` cap (no such
option exists) and no jitter. -/
theorem C4_constant_delay (events : List ClientEvent) : ∀ (s : ClientState),
    (clientRun s events).2.all (delayIsConst s.reconnectDelay) = true := by
  induction events with
  | nil => intro s; simp [clientRun]
  | cons e es ih =>
    intro s
    have h := clientStep_delay s e
    have htail := ih (clientStep s e).1
    rw [h.1] at htail
    simp [clientRun, List.all_cons, h.2, htail]

/-- Claim C5, counterexample: The claim says a caller-initiated `disconnect()`
is terminal: no reconnection is ever attempted afterwards, whatever the
close code and the `autoReconnect` setting.  In the code `disconnect()` only
calls `ws.close()` and clears `isConnected`; when the socket's `close` event
then fires, the handler still runs the auto-reconnect check, so the default
client schedules a reconnection (1000 ms timer, attempt counter 0 → 1). -/
theorem C5_counterexample :
    ((clientStep (clientStep connectedClient .disconnectReq).1 .closeEvt).2.scheduledDelay
      = some 1000)
    ∧ ((clientStep (clientStep connectedClient .disconnectReq).1 .closeEvt).1.reconnectAttempts
      = 1) :=
  ⟨rfl, rfl⟩

/-- Claim C5, amended: `disconnect()` merely closes the socket and clears
`isConnected`; it sets no terminal flag and cancels nothing.  The close
event that follows still runs the ordinary auto-reconnect check: a
reconnection is scheduled (with the constant delay) precisely when
`autoReconnect` is set and attempts remain, regardless of the disconnect
being caller-initiated. -/
theorem C5_disconnect_not_terminal (s : ClientState) :
    ((clientStep (clientStep s .disconnectReq).1 .closeEvt).2.scheduledDelay
      = if s.autoReconnect ∧ s.reconnectAttempts < s.maxReconnectAttempts
        then some s.reconnectDelay else none)
    ∧ ((clientStep (clientStep s .disconnectReq).1 .closeEvt).1.reconnectAttempts
      = if s.autoReconnect ∧ s.reconnectAttempts < s.maxReconnectAttempts
        then s.reconnectAttempts + 1 else s.reconnectAttempts) := by
  by_cases hws : s.ws
  · by_cases h : s.autoReconnect ∧ s.reconnectAttempts < s.maxReconnectAttempts
    · simp [clientStep, hws, h, noOut]
    · simp [clientStep, hws, h, noOut]
  · by_cases h : s.autoReconnect ∧ s.reconnectAttempts < s.maxReconnectAttempts
    · simp [clientStep, hws, h, noOut]
    · simp [clientStep, hws, h, noOut]

/-- A `send` with default options while there is no open connection only
appends to the queue. -/
theorem sendReq_queues (s : ClientState) (h : s.ws = false ∨ s.isConnected = false)
    (cid : Nat) (p : String) :
    clientStep s (.sendReq cid p none)
      = ({ s with messageQueue := s.messageQueue ++ [(cid, p)] }, noOut) := by
  simp only [clientStep]
  rw [if_pos h, if_pos (by simp)]

/-- Issue a list of default-option `send` calls in order. -/
def enqueueAll (s : ClientState) (items : List (Nat × String)) : ClientState :=
  items.foldl (fun st it => (clientStep st (.sendReq it.1 it.2 none)).1) s

/-- While disconnected, a sequence of default `send` calls appends the
payloads to the queue in call order and leaves the connection state alone. -/
theorem enqueueAll_spec (items : List (Nat × String)) : ∀ (s : ClientState),
    s.ws = false ∨ s.isConnected = false →
    ((enqueueAll s items).messageQueue = s.messageQueue ++ items)
    ∧ ((enqueueAll s items).ws = s.ws)
    ∧ ((enqueueAll s items).isConnected = s.isConnected) := by
  induction items with
  | nil => intro s _; simp [enqueueAll]
  | cons it rest ih =>
    intro s h
    have hstep : (clientStep s (.sendReq it.1 it.2 none)).1
        = { s with messageQueue := s.messageQueue ++ [(it.1, it.2)] } := by
      rw [sendReq_queues s h it.1 it.2]
    have hdef : enqueueAll s (it :: rest)
        = enqueueAll (clientStep s (.sendReq it.1 it.2 none)).1 rest := rfl
    rw [hdef, hstep]
    obtain ⟨h1, h2, h3⟩ := ih { s with messageQueue := s.messageQueue ++ [(it.1, it.2)] }
      (by cases h with
        | inl hw => exact Or.inl hw
        | inr hc => exact Or.inr hc)
    refine ⟨?_, h2, h3⟩
    rw [h1]
    simp

/-- Claim C6: Payloads enqueued while the connection is down are transmitted by
the flush on the next successful (re)connection exactly in enqueue order —
the queue preceding them first, then the new entries front-first — each
exactly once (the flush empties the queue), and each entry's promise
resolves with that flush. -/
theorem C6_queue_fifo_flush (s : ClientState) (items : List (Nat × String))
    (h : s.ws = false ∨ s.isConnected = false) :
    ((clientStep (enqueueAll s items) .openEvt).2.transmitted = s.messageQueue ++ items)
    ∧ ((clientStep (enqueueAll s items) .openEvt).2.settled
        = (s.messageQueue ++ items).map (fun q => (q.1, SendOutcome.resolved)))
    ∧ ((clientStep (enqueueAll s items) .openEvt).1.messageQueue = []) := by
  obtain ⟨hq, _, _⟩ := enqueueAll_spec items s h
  simp [clientStep, hq]

/-- Witness for C6: payloads `A, B, C` queued on a fresh disconnected client
are transmitted as `A, B, C` by the flush. -/
theorem C6_queue_fifo_flush_witness :
    (clientStep (enqueueAll initialClient [(1, "A"), (2, "B"), (3, "C")]) .openEvt).2.transmitted
      = [(1, "A"), (2, "B"), (3, "C")] := by
  have h := C6_queue_fifo_flush initialClient [(1, "A"), (2, "B"), (3, "C")] (Or.inl rfl)
  simpa using h.1

/-- Claim C7: A `send` while the connection is not open: with queuing not
explicitly disabled (the default) the payload is appended to the outbound
queue and nothing settles or is transmitted yet — the promise resolves
exactly when the payload is transmitted by the flush after a future
reconnection; with `queue: false` the call rejects immediately with
`'WebSocket is not connected'` and the state (queue included) is unchanged. -/
theorem C7_send_disconnected_behavior (s : ClientState) (cid : Nat) (p : String)
    (h : s.ws = false ∨ s.isConnected = false) :
    ((clientStep s (.sendReq cid p none)).1.messageQueue = s.messageQueue ++ [(cid, p)])
    ∧ ((clientStep s (.sendReq cid p none)).2.settled = [])
    ∧ ((clientStep s (.sendReq cid p none)).2.transmitted = [])
    ∧ ((clientStep (clientStep s (.sendReq cid p none)).1 .openEvt).2.transmitted
        = s.messageQueue ++ [(cid, p)])
    ∧ ((clientStep (clientStep s (.sendReq cid p none)).1 .openEvt).2.settled
        = (s.messageQueue ++ [(cid, p)]).map (fun q => (q.1, SendOutcome.resolved)))
    ∧ ((clientStep s (.sendReq cid p (some false))).1 = s)
    ∧ ((clientStep s (.sendReq cid p (some false))).2
        = { transmitted := [], settled := [(cid, .rejected "WebSocket is not connected")],
            scheduledDelay := none }) := by
  have hq := sendReq_queues s h cid p
  have hfalse : clientStep s (.sendReq cid p (some false))
      = (s, { noOut with settled := [(cid, .rejected "WebSocket is not connected")] }) := by
    simp only [clientStep]
    rw [if_pos h, if_neg (by simp)]
  refine ⟨?_, ?_, ?_, ?_, ?_, ?_, ?_⟩
  · rw [hq]
  · rw [hq]; rfl
  · rw [hq]; rfl
  · rw [hq]; simp [clientStep]
  · rw [hq]; simp [clientStep]
  · rw [hfalse]
  · rw [hfalse]; rfl

/-- Witness for C7: both branches exercised on a fresh disconnected client. -/
theorem C7_send_disconnected_behavior_witness :
    ((clientStep initialClient (.sendReq 7 "hello" none)).1.messageQueue = [(7, "hello")])
    ∧ ((clientStep initialClient (.sendReq 7 "hello" (some false))).2.settled
        = [(7, .rejected "WebSocket is not connected")]) := by
  have h := C7_send_disconnected_behavior initialClient 7 "hello" (Or.inl rfl)
  exact ⟨by simpa using h.1, by rw [h.2.2.2.2.2.2]⟩
